import Mathlib

set_option linter.unusedVariables false

/-! Shallow embedding of the chart-synthesis core of the Excel Analytics
Platform backend (`src/backend/routes/charts.js` and
`src/backend/routes/files.js`).  JavaScript scalar cell values are modelled
by `JSVal`; JS numbers are finite rationals or NaN (the infinities are not
modelled: no code path considered here produces one from its inputs). -/

inductive JSVal where
  | null
  | undef
  | num (q : ℚ)
  | nan
  | str (s : String)
deriving DecidableEq

/-- Decimal digits folded into a natural number. -/
def natFromDigits (ds : List Char) : Nat :=
  ds.foldl (fun n c => 10 * n + (c.toNat - 48)) 0

/-- Rational addition through the reduced-fraction smart constructor (the
library addition is irreducible; this form also computes inside proofs). -/
def qAdd (a b : ℚ) : ℚ := mkRat (a.num * b.den + b.num * a.den) (a.den * b.den)

/-- Rational negation through the reduced-fraction smart constructor. -/
def qNeg (a : ℚ) : ℚ := mkRat (-a.num) a.den

/-- Whitespace trim on both ends of a character list. -/
def trimChars (cs : List Char) : List Char :=
  ((cs.dropWhile Char.isWhitespace).reverse.dropWhile Char.isWhitespace).reverse

/-- Exact value of the decimal literal `ip . fp × 10 ^ e`. -/
def decLiteralVal (ip fp : List Char) (e : Int) : ℚ :=
  let m : Int := (natFromDigits (ip ++ fp) : Int)
  let sh : Int := e - (fp.length : Int)
  if 0 ≤ sh then mkRat (m * (10 : Int) ^ sh.toNat) 1
  else mkRat m ((10 : Nat) ^ (-sh).toNat)

/-- Exponent part of a JS numeric string: an optional sign followed by at
least one digit, consuming the whole remainder. -/
def parseExpPart : List Char → Option Int
  | '+' :: rest =>
    if rest ≠ [] ∧ rest.all Char.isDigit then some (natFromDigits rest) else none
  | '-' :: rest =>
    if rest ≠ [] ∧ rest.all Char.isDigit then some (-(natFromDigits rest : Int)) else none
  | rest =>
    if rest ≠ [] ∧ rest.all Char.isDigit then some (natFromDigits rest) else none

/-- Magnitude of a JS decimal literal: integer digits, optional fraction,
optional exponent.  This is the `StrDecimalLiteral` grammar without
`Infinity` and without the hex, octal and binary forms, none of which occur
in the data this code handles. -/
def parseDecMagnitude (cs : List Char) : Option ℚ :=
  let ip := cs.takeWhile Char.isDigit
  let r1 := cs.dropWhile Char.isDigit
  match r1 with
  | [] => if ip = [] then none else some (decLiteralVal ip [] 0)
  | '.' :: r2 =>
    let fp := r2.takeWhile Char.isDigit
    let r3 := r2.dropWhile Char.isDigit
    if ip = [] ∧ fp = [] then none
    else
      match r3 with
      | [] => some (decLiteralVal ip fp 0)
      | 'e' :: r4 => (parseExpPart r4).map (fun e => decLiteralVal ip fp e)
      | 'E' :: r4 => (parseExpPart r4).map (fun e => decLiteralVal ip fp e)
      | _ => none
  | 'e' :: r4 =>
    if ip = [] then none
    else (parseExpPart r4).map (fun e => decLiteralVal ip [] e)
  | 'E' :: r4 =>
    if ip = [] then none
    else (parseExpPart r4).map (fun e => decLiteralVal ip [] e)
  | _ => none

/-- A JS decimal literal with its optional leading sign. -/
def parseSignedDec : List Char → Option ℚ
  | '+' :: rest => parseDecMagnitude rest
  | '-' :: rest => (parseDecMagnitude rest).map qNeg
  | cs => parseDecMagnitude cs

/-- JS `Number(string)` conversion: trim whitespace, the empty string means 0,
otherwise an optionally signed decimal literal; anything else is NaN. -/
def strToNumber (s : String) : JSVal :=
  let t := trimChars s.data
  if t = [] then JSVal.num 0
  else
    match parseSignedDec t with
    | some q => JSVal.num q
    | none => JSVal.nan

/-- JS `Number(v)` on the scalar values occurring here. -/
def toNumber : JSVal → JSVal
  | JSVal.null => JSVal.num 0
  | JSVal.undef => JSVal.nan
  | JSVal.num q => JSVal.num q
  | JSVal.nan => JSVal.nan
  | JSVal.str s => strToNumber s

/-- JS `isNaN` applied to a value that is already a number. -/
def isNaNVal : JSVal → Bool
  | JSVal.nan => true
  | _ => false

/-- JS truthiness of the scalar values occurring here. -/
def jsTruthy : JSVal → Bool
  | JSVal.null => false
  | JSVal.undef => false
  | JSVal.num q => !(q == 0)
  | JSVal.nan => false
  | JSVal.str s => !(s == "")

/-- JS `a || b`. -/
def jsOr (a b : JSVal) : JSVal := if jsTruthy a then a else b

/-- JS `+` restricted to numbers, its only use sites in this code; `nan`
propagates and non-numeric operands are never reached. -/
def jsAdd : JSVal → JSVal → JSVal
  | JSVal.num a, JSVal.num b => JSVal.num (qAdd a b)
  | _, _ => JSVal.nan

/-- JS `String(v)` and template-literal coercion.  Integral numbers print as
in JS; non-integral rationals fall back to Lean's `ℚ` notation (JS float
formatting is not modelled; no claim exercises it). -/
def jsString : JSVal → String
  | JSVal.null => "null"
  | JSVal.undef => "undefined"
  | JSVal.num q => if q.den = 1 then toString q.num else toString q
  | JSVal.nan => "NaN"
  | JSVal.str s => s

/-- Cell access `row[i]`: out of range yields JS `undefined`. -/
def getCell (row : List JSVal) (i : Nat) : JSVal := row.getD i JSVal.undef

/-- The test `val !== null && val !== undefined && val !== ''` used both by
the column classifier and by data cleaning. -/
def presentVal : JSVal → Bool
  | JSVal.null => false
  | JSVal.undef => false
  | JSVal.str s => !(s == "")
  | _ => true

/-- The per-column record built by `columnAnalysis` in
`src/backend/routes/charts.js`.  In the `empty` branch the source object
carries no count fields; they are modelled as zeroes there.  `colType`
stands for the source field `type`. -/
structure ColInfo where
  index : Nat
  header : JSVal
  numericCount : Nat
  stringCount : Nat
  totalValues : Nat
  hasData : Bool
  colType : String
deriving DecidableEq

/-- The count predicate `typeof val === 'number' || !isNaN(Number(val))`. -/
def countsAsNumeric (c : JSVal) : Bool :=
  match c with
  | JSVal.num _ => true
  | JSVal.nan => true
  | c => !(isNaNVal (toNumber c))

/-- The count predicate `typeof val === 'string' && isNaN(Number(val))`. -/
def countsAsNonNumericString (c : JSVal) : Bool :=
  match c with
  | JSVal.str s => isNaNVal (strToNumber s)
  | _ => false

/-- One element of `headers.map((header, index) => ...)` in `columnAnalysis`. -/
def analyzeColumn (rows : List (List JSVal)) (index : Nat) (header : JSVal) : ColInfo :=
  let values := (rows.map (fun row => getCell row index)).filter presentVal
  if values.length = 0 then
    { index := index, header := header, numericCount := 0, stringCount := 0,
      totalValues := 0, hasData := false, colType := "empty" }
  else
    let numericCount := (values.filter countsAsNumeric).length
    let stringCount := (values.filter countsAsNonNumericString).length
    { index := index, header := header, numericCount := numericCount,
      stringCount := stringCount, totalValues := values.length,
      hasData := decide (values.length > 0),
      colType := if numericCount > stringCount then "numeric" else "categorical" }

/-- `columnAnalysis` from the `/autogen` route. -/
def columnAnalysis (headers : List JSVal) (rows : List (List JSVal)) : List ColInfo :=
  headers.enum.map (fun p => analyzeColumn rows p.1 p.2)

/-- One entry of `datasets`.  The fixed style constants of the source
(colors, border width, fill) are omitted: they are literals with no bearing
on any claim. -/
structure Dataset where
  label : JSVal
  data : List JSVal
deriving DecidableEq

structure ChartConfig where
  labels : List JSVal
  datasets : List Dataset
deriving DecidableEq

/-- `acc[key] = (acc[key] || 0) + item.y` on a JS object modelled as an
insertion-ordered association list; a fresh key is appended (reading a
missing key gives `undefined`). -/
def updateAssoc : List (String × JSVal) → String → JSVal → List (String × JSVal)
  | [], k, v => [(k, jsAdd (jsOr JSVal.undef (JSVal.num 0)) v)]
  | (k', v') :: rest, k, v =>
    if k' = k then (k', jsAdd (jsOr v' (JSVal.num 0)) v) :: rest
    else (k', v') :: updateAssoc rest k v

/-- The `reduce` in the pie/doughnut branch of manual chart creation. -/
def aggregateData (pts : List (JSVal × JSVal)) : List (String × JSVal) :=
  pts.foldl (fun acc item => updateAssoc acc (jsString item.1) item.2) []

/-- Canonical decimal form of a natural number: nonempty digits with no
leading zero (except `0` itself). -/
def isCanonicalNatChars : List Char → Bool
  | [] => false
  | ['0'] => true
  | c :: rest => (c :: rest).all Char.isDigit && !(c == '0')

/-- A string is an array-index property key when it is the canonical decimal
form of some `n < 2^32 - 1` (the ECMA-262 integer-index rule). -/
def isArrayIndexKey (s : String) : Bool :=
  isCanonicalNatChars s.data && decide (natFromDigits s.data < 4294967295)

def keyNumVal (s : String) : Nat := natFromDigits s.data

/-- `Object.keys` / `Object.values` enumeration order: array-index keys first
in ascending numeric order, then the remaining keys in insertion order. -/
def jsOrderedEntries (entries : List (String × JSVal)) : List (String × JSVal) :=
  List.insertionSort (fun a b => keyNumVal a.1 ≤ keyNumVal b.1)
      (entries.filter (fun e => isArrayIndexKey e.1))
    ++ entries.filter (fun e => !isArrayIndexKey e.1)

/-- The `cleanData` map-and-filter of manual chart creation, before the
`slice(0, 50)`.  The pie/doughnut ternary of the source has identical
branches (`Number(row[yIdx]) || 0` either way), so it is written once. -/
def manualCleanPairs (rows : List (List JSVal)) (xIdx yIdx : Nat) : List (JSVal × JSVal) :=
  (rows.map (fun row => (getCell row xIdx, jsOr (toNumber (getCell row yIdx)) (JSVal.num 0)))).filter
    (fun item => presentVal item.1 && (!(isNaNVal item.2) && !(item.2 == JSVal.null)))

/-- `cleanData` of manual creation, with its `slice(0, 50)` cap. -/
def manualCleanData (rows : List (List JSVal)) (xIdx yIdx : Nat) : List (JSVal × JSVal) :=
  (manualCleanPairs rows xIdx yIdx).take 50

/-- `chartConfig` synthesis from manual chart creation. -/
def manualChartConfig (chartType : String) (headers : List JSVal)
    (rows : List (List JSVal)) (xIdx yIdx : Nat) : ChartConfig :=
  let cleanData := manualCleanData rows xIdx yIdx
  if chartType = "pie" ∨ chartType = "doughnut" then
    let entries := jsOrderedEntries (aggregateData cleanData)
    { labels := entries.map (fun e => JSVal.str e.1),
      datasets := [{ label := getCell headers yIdx, data := entries.map (fun e => e.2) }] }
  else
    { labels := cleanData.map (fun item => JSVal.str (jsString item.1)),
      datasets := [{ label := getCell headers yIdx,
                     data := cleanData.map (fun item => item.2) }] }

/-- The `cleanData` map-and-filter of `/autogen`, before the `slice(0, 20)`. -/
def autogenCleanPairs (rows : List (List JSVal)) (xIdx yIdx : Nat) : List (JSVal × JSVal) :=
  (rows.map (fun row => (getCell row xIdx, jsOr (toNumber (getCell row yIdx)) (JSVal.num 0)))).filter
    (fun item => presentVal item.1 && !(isNaNVal item.2))

/-- `cleanData` of `/autogen`, with its `slice(0, 20)` cap. -/
def autogenCleanData (rows : List (List JSVal)) (xIdx yIdx : Nat) : List (JSVal × JSVal) :=
  (autogenCleanPairs rows xIdx yIdx).take 20

structure ChartRec where
  id : Nat
  title : String
  chartType : String
  chartConfig : ChartConfig
  sourceFile : Nat
  createdBy : Nat
deriving DecidableEq

/-- An uploaded file.  `sheet` models what `XLSX.readFile(file.path)`
followed by `sheet_to_json(..., header: 1)` yields on the stored bytes;
`none` means the reader throws (a parse failure). -/
structure FileRec where
  id : Nat
  originalName : String
  mimetype : String
  uploadedBy : Nat
  sheet : Option (List (List JSVal))
deriving DecidableEq

/-- The document store: file records, chart records, and the next fresh
identifier handed out on insertion. -/
structure DBState where
  files : List FileRec
  charts : List ChartRec
  nextId : Nat
deriving DecidableEq

/-- Helper for `String.prototype.includes`: pattern is a prefix here. -/
def charsLead (pat cs : List Char) : Bool :=
  match pat, cs with
  | [], _ => true
  | _ :: _, [] => false
  | p :: ps, c :: cs' => p == c && charsLead ps cs'

/-- Helper for `String.prototype.includes`: pattern occurs somewhere. -/
def charsHaveSub (pat : List Char) : List Char → Bool
  | [] => pat.isEmpty
  | c :: cs => charsLead pat (c :: cs) || charsHaveSub pat cs

/-- `s.includes(pat)`. -/
def strIncludes (s pat : String) : Bool := charsHaveSub pat.data s.data

/-- The per-file body of `/autogen` after the duplicate-chart guard:
mimetype check, sheet read, column analysis, cleaning, and the chart to be
inserted.  `none` is a per-file skip (a logged `continue` in the source).
The store-generated identifier is filled in by `autogenTry`; here it is a
placeholder 0. -/
def autogenCore (user : Nat) (f : FileRec) : Option ChartRec :=
  if !(strIncludes f.mimetype "excel" || strIncludes f.mimetype "spreadsheetml") then none
  else
    match f.sheet with
    | none => none
    | some json =>
      if json.length < 2 then none
      else
        let headers := json.headD []
        let rows := (json.drop 1).filter (fun row => decide (row.length > 0))
        if rows.length = 0 then none
        else
          let analysis := columnAnalysis headers rows
          let cats := analysis.filter (fun col => col.colType == "categorical" && col.hasData)
          let nums := analysis.filter (fun col => col.colType == "numeric" && col.hasData)
          match cats.head?, nums.head? with
          | some xCol, some yCol =>
            let cleanData := autogenCleanData rows xCol.index yCol.index
            if cleanData.length = 0 then none
            else
              some { id := 0,
                     title := f.originalName ++ " - " ++ jsString yCol.header
                       ++ " by " ++ jsString xCol.header,
                     chartType := "bar",
                     chartConfig :=
                       { labels := cleanData.map (fun item => JSVal.str (jsString item.1)),
                         datasets := [{ label := jsOr yCol.header (JSVal.str "Values"),
                                        data := cleanData.map (fun item => item.2) }] },
                     sourceFile := f.id,
                     createdBy := user }
          | _, _ => none

/-- The guard `Chart.findOne({ sourceFile: file._id, createdBy: req.user._id })`. -/
def chartBlocks (user : Nat) (f : FileRec) (c : ChartRec) : Bool :=
  c.sourceFile == f.id && c.createdBy == user

/-- One iteration of the `/autogen` loop body, assigning the store's fresh
identifier on creation. -/
def autogenTry (user : Nat) (st : DBState) (f : FileRec) : Option ChartRec :=
  if st.charts.any (chartBlocks user f) then none
  else (autogenCore user f).map (fun c => { c with id := st.nextId })

/-- The `/autogen` loop over the user's files, threading the store. -/
def autogenLoop (user : Nat) : List FileRec → DBState → DBState × List ChartRec
  | [], st => (st, [])
  | f :: rest, st =>
    match autogenTry user st f with
    | none => autogenLoop user rest st
    | some ch =>
      let st' : DBState := { st with charts := st.charts ++ [ch], nextId := st.nextId + 1 }
      let res := autogenLoop user rest st'
      (res.1, ch :: res.2)

structure AutogenResponse where
  created : Nat
  details : List (String × Nat)
deriving DecidableEq

/-- `POST /charts/autogen`. -/
def autogenRoute (user : Nat) (st : DBState) : DBState × AutogenResponse :=
  let userFiles := st.files.filter (fun f => f.uploadedBy == user)
  let res := autogenLoop user userFiles st
  (res.1, { created := res.2.length, details := res.2.map (fun c => (c.title, c.id)) })

/-- Outcomes of `POST /charts` (manual creation).  `parseError` models an
`XLSX.readFile` throw reaching the route's catch-all handler.  The required
`sourceFile` field is modelled as always supplied (its absence is part of
the `missingFields` truthiness check in the source). -/
inductive ManualOutcome where
  | missingFields
  | fileNotFound
  | notEnoughData
  | noValidRows
  | columnNotFound
  | noValidPoints
  | parseError
  | created (chart : ChartRec)
deriving DecidableEq

/-- `POST /charts`: manual chart creation. -/
def manualCreate (user : Nat) (title description chartType : String)
    (sourceFile : Nat) (xColumn yColumn : String) (st : DBState) :
    ManualOutcome × DBState :=
  if title == "" || chartType == "" || xColumn == "" || yColumn == "" then
    (ManualOutcome.missingFields, st)
  else
    match st.files.find? (fun f => f.id == sourceFile) with
    | none => (ManualOutcome.fileNotFound, st)
    | some file =>
      if !(file.uploadedBy == user) then (ManualOutcome.fileNotFound, st)
      else
        match file.sheet with
        | none => (ManualOutcome.parseError, st)
        | some json =>
          if json.length < 2 then (ManualOutcome.notEnoughData, st)
          else
            let headers := json.headD []
            let rows := (json.drop 1).filter (fun row => decide (row.length > 0))
            if rows.length = 0 then (ManualOutcome.noValidRows, st)
            else
              match headers.findIdx? (fun h => h == JSVal.str xColumn),
                    headers.findIdx? (fun h => h == JSVal.str yColumn) with
              | some xIdx, some yIdx =>
                if (manualCleanData rows xIdx yIdx).length = 0 then
                  (ManualOutcome.noValidPoints, st)
                else
                  let chart : ChartRec :=
                    { id := st.nextId, title := title, chartType := chartType,
                      chartConfig := manualChartConfig chartType headers rows xIdx yIdx,
                      sourceFile := file.id, createdBy := user }
                  (ManualOutcome.created chart,
                   { st with charts := st.charts ++ [chart], nextId := st.nextId + 1 })
              | _, _ => (ManualOutcome.columnNotFound, st)

structure UploadReq where
  originalName : String
  mimetype : String
  sheet : Option (List (List JSVal))
deriving DecidableEq

/-- The chart inserted by the upload-time generation block for one chart
type; the pie and non-pie branches of the source differ only in the omitted
color constants. -/
def uploadChart (user fid cid : Nat) (ct originalName : String)
    (headers : List JSVal) (rows : List (List JSVal)) (xIdx yIdx : Nat) : ChartRec :=
  { id := cid,
    title := originalName ++ " - " ++ jsString (getCell headers yIdx)
      ++ " vs " ++ jsString (getCell headers xIdx) ++ " (" ++ ct ++ ")",
    chartType := ct,
    chartConfig := { labels := rows.map (fun r => getCell r xIdx),
                     datasets := [{ label := getCell headers yIdx,
                                    data := rows.map (fun r => getCell r yIdx) }] },
    sourceFile := fid,
    createdBy := user }

/-- The `for (const chartType of chartTypes)` loop of the upload route, with
its per-type duplicate guard. -/
def uploadTypesLoop (user fid : Nat) (originalName : String) (headers : List JSVal)
    (rows : List (List JSVal)) (xIdx yIdx : Nat) :
    List String → DBState → DBState
  | [], st => st
  | ct :: rest, st =>
    if st.charts.any (fun c =>
        c.sourceFile == fid && c.createdBy == user && c.chartType == ct) then
      uploadTypesLoop user fid originalName headers rows xIdx yIdx rest st
    else
      let ch := uploadChart user fid st.nextId ct originalName headers rows xIdx yIdx
      uploadTypesLoop user fid originalName headers rows xIdx yIdx rest
        { st with charts := st.charts ++ [ch], nextId := st.nextId + 1 }

def uploadChartTypes : List String := ["bar", "line", "pie"]

/-- `POST /files/upload`: save the file record, then the best-effort
generation block (columns whose first-data-row cell has
`typeof === 'number'`; needs at least two).  Returns the new file's
identifier alongside the store. -/
def uploadRoute (user : Nat) (req : UploadReq) (st : DBState) : DBState × Nat :=
  let fid := st.nextId
  let file : FileRec := { id := fid, originalName := req.originalName,
                          mimetype := req.mimetype, uploadedBy := user, sheet := req.sheet }
  let st1 : DBState := { st with files := st.files ++ [file], nextId := st.nextId + 1 }
  match req.sheet with
  | none => (st1, fid)
  | some json =>
    if json.length < 2 then (st1, fid)
    else
      let headers := json.headD []
      let rows := json.drop 1
      let numericIndices := (List.range headers.length).filter
        (fun i => match getCell (rows.headD []) i with
                  | JSVal.num _ => true
                  | JSVal.nan => true
                  | _ => false)
      if numericIndices.length < 2 then (st1, fid)
      else
        let xIdx := numericIndices.headD 0
        let yIdx := (numericIndices.drop 1).headD 0
        (uploadTypesLoop user fid req.originalName headers rows xIdx yIdx uploadChartTypes st1,
         fid)

inductive DeleteOutcome where
  | notFound
  | ok
deriving DecidableEq

/-- `DELETE /files/:id`: remove the file record and cascade-delete every
chart whose `sourceFile` matches (removal of the physical file is outside
the store model). -/
def deleteFileRoute (user fid : Nat) (st : DBState) : DeleteOutcome × DBState :=
  match st.files.find? (fun f => f.id == fid) with
  | none => (DeleteOutcome.notFound, st)
  | some f =>
    if !(f.uploadedBy == user) then (DeleteOutcome.notFound, st)
    else
      (DeleteOutcome.ok,
       { st with files := st.files.filter (fun g => !(g.id == fid)),
                 charts := st.charts.filter (fun c => !(c.sourceFile == fid)) })

/-- First-appearance deduplication relative to a list of already-seen keys
(specification side of the pie aggregation). -/
def dedupNotIn : List String → List String → List String
  | [], _ => []
  | k :: rest, seen =>
    if k ∈ seen then dedupNotIn rest seen else k :: dedupNotIn rest (seen ++ [k])

/-- Keys of a list in order of first appearance. -/
def dedupKeepFirst (l : List String) : List String := dedupNotIn l []

/-- Sum of the values attached to key `k` (specification side of the pie
aggregation). -/
def groupSum (pts : List (String × ℚ)) (k : String) : ℚ :=
  ((pts.filter (fun p => p.1 = k)).map (fun p => p.2)).sum

/-- Mathematical core of `updateAssoc`, on rationals. -/
def updateQ : List (String × ℚ) → String → ℚ → List (String × ℚ)
  | [], k, v => [(k, v)]
  | (k', v') :: rest, k, v =>
    if k' = k then (k', v' + v) :: rest else (k', v') :: updateQ rest k v

/-- Mathematical core of the aggregation fold, on rationals. -/
def foldQ (acc : List (String × ℚ)) (pts : List (String × ℚ)) : List (String × ℚ) :=
  pts.foldl (fun a p => updateQ a p.1 p.2) acc

/-- Rational association lists viewed as JS-valued ones. -/
def liftQ (l : List (String × ℚ)) : List (String × JSVal) :=
  l.map (fun p => (p.1, JSVal.num p.2))

/-- The rational carried by a JS number (0 on non-numbers; used only where
the value is provably a number). -/
def qVal : JSVal → ℚ
  | JSVal.num q => q
  | _ => 0

/-- A hundred identical valid rows, used to exercise the configuration caps. -/
def hundredRows : List (List JSVal) := List.replicate 100 [JSVal.str "A", JSVal.num 1]

/-- The configuration-shape invariant of C10: the single dataset's data list
is as long as the labels list. -/
def chartLenOK (c : ChartRec) : Prop :=
  c.chartConfig.datasets.map (fun d => d.data.length) = [c.chartConfig.labels.length]

/-- `Number(v)` always yields a number value: a finite rational or NaN. -/
theorem toNumber_num_or_nan (v : JSVal) :
    (∃ q, toNumber v = JSVal.num q) ∨ toNumber v = JSVal.nan := by
  cases v with
  | null => exact Or.inl ⟨0, rfl⟩
  | undef => exact Or.inr rfl
  | num q => exact Or.inl ⟨q, rfl⟩
  | nan => exact Or.inr rfl
  | str s =>
    show (∃ q, strToNumber s = JSVal.num q) ∨ strToNumber s = JSVal.nan
    unfold strToNumber
    by_cases h : trimChars s.data = []
    · simp [h]
    · simp only [h, if_false]
      cases parseSignedDec (trimChars s.data) with
      | none => exact Or.inr rfl
      | some q => exact Or.inl ⟨q, rfl⟩

/-- `Number(...) || 0` is always a finite number. -/
theorem jsOr_toNumber_zero_num (v : JSVal) :
    ∃ q, jsOr (toNumber v) (JSVal.num 0) = JSVal.num q := by
  rcases toNumber_num_or_nan v with ⟨q, hq⟩ | hq
  · rw [hq]
    unfold jsOr jsTruthy
    by_cases h : q = 0
    · simp [h]
    · simp [h]
  · rw [hq]
    exact ⟨0, rfl⟩

/-- The cleaning filter's Y-validity test `!isNaN(item.y)` never fails. -/
theorem isNaNVal_jsOr_toNumber_zero (v : JSVal) :
    isNaNVal (jsOr (toNumber v) (JSVal.num 0)) = false := by
  obtain ⟨q, hq⟩ := jsOr_toNumber_zero_num v
  rw [hq]
  rfl

/-- The cleaning filter's `item.y !== null` test never fails. -/
theorem jsOr_toNumber_zero_ne_null (v : JSVal) :
    (jsOr (toNumber v) (JSVal.num 0) == JSVal.null) = false := by
  obtain ⟨q, hq⟩ := jsOr_toNumber_zero_num v
  rw [hq]
  rfl

/-- C1.  The claim says a pair is discarded when X is null/undefined/blank
*or when Y fails to parse as a finite number*.  In the code, `item.y` is
`Number(cell) || 0`, which is never NaN (NaN is falsy, so `|| 0` replaces
it); hence the Y-side tests of the filters never discard anything, and the
cleaned list keeps exactly the rows with a present X, pairing each with the
parsed Y or 0.  This theorem captures the amended claim for both the manual
and the bulk auto-generation cleaners. -/
theorem c1_cleaning_filters_only_on_x :
    (∀ rows xIdx yIdx,
        manualCleanPairs rows xIdx yIdx
          = (rows.filter (fun r => presentVal (getCell r xIdx))).map
              (fun r => (getCell r xIdx, jsOr (toNumber (getCell r yIdx)) (JSVal.num 0))))
    ∧ (∀ rows xIdx yIdx,
        autogenCleanPairs rows xIdx yIdx
          = (rows.filter (fun r => presentVal (getCell r xIdx))).map
              (fun r => (getCell r xIdx, jsOr (toNumber (getCell r yIdx)) (JSVal.num 0))))
    ∧ (∀ v, ∃ q, jsOr (toNumber v) (JSVal.num 0) = JSVal.num q) := by
  refine ⟨?_, ?_, jsOr_toNumber_zero_num⟩
  · intro rows xIdx yIdx
    unfold manualCleanPairs
    rw [List.filter_map]
    congr 1
    apply List.filter_congr
    intro r _
    simp [Function.comp, isNaNVal_jsOr_toNumber_zero, jsOr_toNumber_zero_ne_null]
  · intro rows xIdx yIdx
    unfold autogenCleanPairs
    rw [List.filter_map]
    congr 1
    apply List.filter_congr
    intro r _
    simp [Function.comp, isNaNVal_jsOr_toNumber_zero]

/-- C1 counterexample to the claim as stated: the Y cell `"hello"` does not
parse as a number (`Number("hello")` is NaN), yet the row contributes the
data point `("A", 0)` to the cleaned list and to the chart configuration. -/
theorem c1_unparseable_y_still_contributes :
    isNaNVal (toNumber (JSVal.str "hello")) = true
    ∧ manualCleanPairs [[JSVal.str "A", JSVal.str "hello"]] 0 1
        = [(JSVal.str "A", JSVal.num 0)]
    ∧ (manualChartConfig "bar" [JSVal.str "X", JSVal.str "Y"]
        [[JSVal.str "A", JSVal.str "hello"]] 0 1).datasets.map Dataset.data
        = [[JSVal.num 0]]
    ∧ autogenCleanPairs [[JSVal.str "A", JSVal.str "hello"]] 0 1
        = [(JSVal.str "A", JSVal.num 0)] := by decide


/-- C2.  The classifier drops null/undefined/blank cells; an exhausted column
is `empty`; otherwise the column is `numeric` exactly when the count of
numeric-parseable cells strictly exceeds the count of non-numeric strings,
and `categorical` otherwise (ties included).  The last conjunct ties each
position of `columnAnalysis` to its header. -/
theorem c2_column_classifier :
    (∀ rows index header,
      (((rows.map (fun row => getCell row index)).filter presentVal).length = 0 →
        (analyzeColumn rows index header).colType = "empty")
      ∧ (((rows.map (fun row => getCell row index)).filter presentVal).length ≠ 0 →
          ((analyzeColumn rows index header).colType = "numeric"
            ↔ (((rows.map (fun row => getCell row index)).filter presentVal).filter countsAsNumeric).length
                > (((rows.map (fun row => getCell row index)).filter presentVal).filter countsAsNonNumericString).length))
      ∧ (((rows.map (fun row => getCell row index)).filter presentVal).length ≠ 0 →
          ((analyzeColumn rows index header).colType = "categorical"
            ↔ (((rows.map (fun row => getCell row index)).filter presentVal).filter countsAsNumeric).length
                ≤ (((rows.map (fun row => getCell row index)).filter presentVal).filter countsAsNonNumericString).length)))
    ∧ (∀ headers rows i (h : i < headers.length) (hl : i < (columnAnalysis headers rows).length),
        (columnAnalysis headers rows).get ⟨i, hl⟩ = analyzeColumn rows i (headers.get ⟨i, h⟩)) := by
  constructor
  · intro rows index header
    refine ⟨?_, ?_, ?_⟩
    · intro h0
      simp [analyzeColumn, h0]
    · intro hne
      simp only [analyzeColumn, if_neg hne]
      by_cases hc : (((rows.map (fun row => getCell row index)).filter presentVal).filter countsAsNumeric).length
          > (((rows.map (fun row => getCell row index)).filter presentVal).filter countsAsNonNumericString).length
      · simp [hc]
      · simp [hc]
    · intro hne
      simp only [analyzeColumn, if_neg hne]
      by_cases hc : (((rows.map (fun row => getCell row index)).filter presentVal).filter countsAsNumeric).length
          > (((rows.map (fun row => getCell row index)).filter presentVal).filter countsAsNonNumericString).length
      · simp [hc]
      · simp [hc]
  · intro headers rows i h hl
    simp only [columnAnalysis, List.get_eq_getElem, List.getElem_map, List.getElem_enum]

/-- C2 witness: a two-value column with one numeric and one non-numeric
string is a tie, classified `categorical`. -/
theorem c2_column_classifier_witness :
    ((([[JSVal.str "A"], [JSVal.num 1]] : List (List JSVal)).map
        (fun row => getCell row 0)).filter presentVal).length ≠ 0
    ∧ (analyzeColumn [[JSVal.str "A"], [JSVal.num 1]] 0 (JSVal.str "H")).colType = "categorical" :=
  ⟨by decide, by
    have h := (c2_column_classifier.1 [[JSVal.str "A"], [JSVal.num 1]] 0 (JSVal.str "H")).2.2 (by decide)
    exact h.mpr (by decide)⟩

/-- C9.  Deleting an existing file owned by the requester succeeds and leaves
exactly the charts whose `sourceFile` differs from the deleted file's id:
every chart referencing the file is removed, every other chart remains. -/
theorem c9_delete_file_cascades :
    ∀ user fid st f,
      st.files.find? (fun g => g.id == fid) = some f →
      f.uploadedBy = user →
      (deleteFileRoute user fid st).1 = DeleteOutcome.ok
      ∧ (∀ c, c ∈ (deleteFileRoute user fid st).2.charts ↔ c ∈ st.charts ∧ c.sourceFile ≠ fid) := by
  intro user fid st f hfind howner
  simp only [deleteFileRoute, hfind]
  rw [howner]
  simp only [beq_self_eq_true, Bool.not_true, Bool.false_eq_true, if_false]
  refine ⟨trivial, ?_⟩
  intro c
  simp [List.mem_filter]

/-- C9 witness at a concrete store: one file (id 1, owner 3) and two charts,
one of which references the deleted file. -/
theorem c9_delete_file_cascades_witness :
    (deleteFileRoute 3 1
        { files := [{ id := 1, originalName := "a.xlsx",
                      mimetype := "application/vnd.ms-excel", uploadedBy := 3, sheet := none }],
          charts := [{ id := 4, title := "t1", chartType := "bar",
                       chartConfig := { labels := [], datasets := [] },
                       sourceFile := 1, createdBy := 3 },
                     { id := 5, title := "t2", chartType := "bar",
                       chartConfig := { labels := [], datasets := [] },
                       sourceFile := 2, createdBy := 3 }],
          nextId := 6 }).1 = DeleteOutcome.ok
    ∧ (({ id := 5, title := "t2", chartType := "bar",
          chartConfig := { labels := [], datasets := [] },
          sourceFile := 2, createdBy := 3 } : ChartRec)
        ∈ (deleteFileRoute 3 1
            { files := [{ id := 1, originalName := "a.xlsx",
                          mimetype := "application/vnd.ms-excel", uploadedBy := 3, sheet := none }],
              charts := [{ id := 4, title := "t1", chartType := "bar",
                           chartConfig := { labels := [], datasets := [] },
                           sourceFile := 1, createdBy := 3 },
                         { id := 5, title := "t2", chartType := "bar",
                           chartConfig := { labels := [], datasets := [] },
                           sourceFile := 2, createdBy := 3 }],
              nextId := 6 }).2.charts
        ↔ ({ id := 5, title := "t2", chartType := "bar",
             chartConfig := { labels := [], datasets := [] },
             sourceFile := 2, createdBy := 3 } : ChartRec)
          ∈ [({ id := 4, title := "t1", chartType := "bar",
                chartConfig := { labels := [], datasets := [] },
                sourceFile := 1, createdBy := 3 } : ChartRec),
             { id := 5, title := "t2", chartType := "bar",
               chartConfig := { labels := [], datasets := [] },
               sourceFile := 2, createdBy := 3 }] ∧ (2 : Nat) ≠ 1) := by
  have h := c9_delete_file_cascades 3 1
    { files := [{ id := 1, originalName := "a.xlsx",
                  mimetype := "application/vnd.ms-excel", uploadedBy := 3, sheet := none }],
      charts := [{ id := 4, title := "t1", chartType := "bar",
                   chartConfig := { labels := [], datasets := [] },
                   sourceFile := 1, createdBy := 3 },
                 { id := 5, title := "t2", chartType := "bar",
                   chartConfig := { labels := [], datasets := [] },
                   sourceFile := 2, createdBy := 3 }],
      nextId := 6 }
    { id := 1, originalName := "a.xlsx",
      mimetype := "application/vnd.ms-excel", uploadedBy := 3, sheet := none }
    (by decide) rfl
  exact ⟨h.1, h.2 _⟩

/-- C7.  For a manual-creation request that reaches column resolution (all
required fields present, the file found, owned by the caller, parseable,
with a header row and at least one non-empty data row), an `xColumn` or
`yColumn` absent from the header row yields the column-not-found rejection
and leaves the store unchanged. -/
theorem c7_unknown_column_rejected :
    ∀ user title description chartType sourceFile xColumn yColumn st file json,
      title ≠ "" → chartType ≠ "" → xColumn ≠ "" → yColumn ≠ "" →
      st.files.find? (fun f => f.id == sourceFile) = some file →
      file.uploadedBy = user →
      file.sheet = some json →
      ¬ json.length < 2 →
      ((json.drop 1).filter (fun row => decide (row.length > 0))).length ≠ 0 →
      ((json.headD []).findIdx? (fun h => h == JSVal.str xColumn) = none
        ∨ (json.headD []).findIdx? (fun h => h == JSVal.str yColumn) = none) →
      manualCreate user title description chartType sourceFile xColumn yColumn st
        = (ManualOutcome.columnNotFound, st) := by
  intro user title description chartType sourceFile xColumn yColumn st file json
  intro ht hct hx hy hfind howner hsheet hlen hrows hcol
  simp only [manualCreate, hfind, hsheet, beq_eq_false_iff_ne.mpr ht,
    beq_eq_false_iff_ne.mpr hct, beq_eq_false_iff_ne.mpr hx, beq_eq_false_iff_ne.mpr hy,
    Bool.or_self, Bool.or_false, Bool.false_eq_true, if_false]
  rw [howner]
  simp only [beq_self_eq_true, Bool.not_true, Bool.false_eq_true, if_false,
    if_neg hlen, if_neg hrows]
  rcases hcol with h | h
  · rw [h]
  · cases ha : (json.headD []).findIdx? (fun hh => hh == JSVal.str xColumn) with
    | none => rfl
    | some xi => rw [h]

/-- C7 witness: a store with one parseable two-row file; requesting the
absent column `"Z"` is rejected as column-not-found with the store intact. -/
theorem c7_unknown_column_rejected_witness :
    manualCreate 0 "t" "" "bar" 1 "Z" "B"
        { files := [{ id := 1, originalName := "a.xlsx",
                      mimetype := "application/vnd.ms-excel", uploadedBy := 0,
                      sheet := some [[JSVal.str "A", JSVal.str "B"],
                                     [JSVal.str "r", JSVal.num 2]] }],
          charts := [], nextId := 2 }
      = (ManualOutcome.columnNotFound,
         { files := [{ id := 1, originalName := "a.xlsx",
                       mimetype := "application/vnd.ms-excel", uploadedBy := 0,
                       sheet := some [[JSVal.str "A", JSVal.str "B"],
                                      [JSVal.str "r", JSVal.num 2]] }],
           charts := [], nextId := 2 }) :=
  c7_unknown_column_rejected 0 "t" "" "bar" 1 "Z" "B"
    { files := [{ id := 1, originalName := "a.xlsx",
                  mimetype := "application/vnd.ms-excel", uploadedBy := 0,
                  sheet := some [[JSVal.str "A", JSVal.str "B"],
                                 [JSVal.str "r", JSVal.num 2]] }],
      charts := [], nextId := 2 }
    { id := 1, originalName := "a.xlsx",
      mimetype := "application/vnd.ms-excel", uploadedBy := 0,
      sheet := some [[JSVal.str "A", JSVal.str "B"], [JSVal.str "r", JSVal.num 2]] }
    [[JSVal.str "A", JSVal.str "B"], [JSVal.str "r", JSVal.num 2]]
    (by decide) (by decide) (by decide) (by decide) (by decide) rfl rfl
    (by decide) (by decide) (Or.inl (by decide))

/-- C6 counterexample to the claim as stated: for an input with 100 valid
cleaned rows, a manual pie chart's configuration carries a single data point
(all fifty capped rows share the label `"A"` and are aggregated), not 50. -/
theorem c6_manual_pie_emits_fewer_than_cap :
    (manualCleanPairs hundredRows 0 1).length = 100
    ∧ ((manualChartConfig "pie" [JSVal.str "X", JSVal.str "Y"] hundredRows 0 1).datasets.map
        (fun d => d.data.length)) = [1] := by decide

/-- C6 amended: the cleaned list is truncated to its first 50 entries for
manual creation and 20 for auto-generation, and the configuration carries
exactly `min cap (number of valid rows)` data points for every
non-aggregating (non-pie, non-doughnut) chart type; pie/doughnut
configurations may carry fewer after aggregation. -/
theorem c6_caps_by_chart_type :
    ∀ chartType headers rows xIdx yIdx,
      chartType ≠ "pie" → chartType ≠ "doughnut" →
      ((manualChartConfig chartType headers rows xIdx yIdx).datasets.map
          (fun d => d.data.length) = [min 50 (manualCleanPairs rows xIdx yIdx).length]
        ∧ (manualChartConfig chartType headers rows xIdx yIdx).labels.length
            = min 50 (manualCleanPairs rows xIdx yIdx).length
        ∧ manualCleanData rows xIdx yIdx = (manualCleanPairs rows xIdx yIdx).take 50
        ∧ autogenCleanData rows xIdx yIdx = (autogenCleanPairs rows xIdx yIdx).take 20
        ∧ (autogenCleanData rows xIdx yIdx).length
            = min 20 (autogenCleanPairs rows xIdx yIdx).length) := by
  intro chartType headers rows xIdx yIdx h1 h2
  have hcond : ¬ (chartType = "pie" ∨ chartType = "doughnut") := by
    rintro (h | h)
    · exact h1 h
    · exact h2 h
  refine ⟨?_, ?_, rfl, rfl, ?_⟩
  · simp [manualChartConfig, hcond, manualCleanData, List.length_take]
  · simp [manualChartConfig, hcond, manualCleanData, List.length_take]
  · simp [autogenCleanData, List.length_take]

/-- C6 witness: with 100 valid rows, a manual bar chart carries exactly 50
points and auto-generation exactly 20. -/
theorem c6_caps_by_chart_type_witness :
    ("bar" : String) ≠ "pie"
    ∧ ((manualChartConfig "bar" [JSVal.str "X", JSVal.str "Y"] hundredRows 0 1).datasets.map
        (fun d => d.data.length) = [min 50 (manualCleanPairs hundredRows 0 1).length])
    ∧ min 50 (manualCleanPairs hundredRows 0 1).length = 50
    ∧ (autogenCleanData hundredRows 0 1).length = min 20 (autogenCleanPairs hundredRows 0 1).length
    ∧ min 20 (autogenCleanPairs hundredRows 0 1).length = 20 :=
  ⟨by decide,
   (c6_caps_by_chart_type "bar" [JSVal.str "X", JSVal.str "Y"] hundredRows 0 1
      (by decide) (by decide)).1,
   by decide,
   (c6_caps_by_chart_type "bar" [JSVal.str "X", JSVal.str "Y"] hundredRows 0 1
      (by decide) (by decide)).2.2.2.2,
   by decide⟩

/-- C4.  Uploading the 2-column City/Sales sheet creates no chart at upload
time (its first data row has only one `typeof number` cell, and upload-time
generation needs two), and the subsequent automatic bar-chart generation
produces exactly one bar chart with labels NY, LA, NY and data 100, 200, 50
— one point per row, no aggregation. -/
theorem c4_city_sales_bar_chart :
    ((uploadRoute 7
        { originalName := "sales.xlsx", mimetype := "application/vnd.ms-excel",
          sheet := some [[JSVal.str "City", JSVal.str "Sales"],
                         [JSVal.str "NY", JSVal.num 100],
                         [JSVal.str "LA", JSVal.num 200],
                         [JSVal.str "NY", JSVal.num 50]] }
        { files := [], charts := [], nextId := 1 }).1.charts = [])
    ∧ (((autogenRoute 7 (uploadRoute 7
        { originalName := "sales.xlsx", mimetype := "application/vnd.ms-excel",
          sheet := some [[JSVal.str "City", JSVal.str "Sales"],
                         [JSVal.str "NY", JSVal.num 100],
                         [JSVal.str "LA", JSVal.num 200],
                         [JSVal.str "NY", JSVal.num 50]] }
        { files := [], charts := [], nextId := 1 }).1).1.charts.map
        (fun c => (c.chartType, c.chartConfig.labels, c.chartConfig.datasets.map Dataset.data)))
      = [("bar", [JSVal.str "NY", JSVal.str "LA", JSVal.str "NY"],
          [[JSVal.num 100, JSVal.num 200, JSVal.num 50]])])
    ∧ ((autogenRoute 7 (uploadRoute 7
        { originalName := "sales.xlsx", mimetype := "application/vnd.ms-excel",
          sheet := some [[JSVal.str "City", JSVal.str "Sales"],
                         [JSVal.str "NY", JSVal.num 100],
                         [JSVal.str "LA", JSVal.num 200],
                         [JSVal.str "NY", JSVal.num 50]] }
        { files := [], charts := [], nextId := 1 }).1).2.created = 1) := by decide

/-- Every configuration built by manual creation satisfies the invariant. -/
theorem manualChartConfig_lenOK (chartType : String) (headers : List JSVal)
    (rows : List (List JSVal)) (xIdx yIdx : Nat) :
    (manualChartConfig chartType headers rows xIdx yIdx).datasets.map
        (fun d => d.data.length)
      = [(manualChartConfig chartType headers rows xIdx yIdx).labels.length] := by
  unfold manualChartConfig
  by_cases h : chartType = "pie" ∨ chartType = "doughnut"
  · simp [h]
  · simp [h]

/-- Every configuration built by upload-time generation satisfies the
invariant. -/
theorem uploadChart_lenOK (user fid cid : Nat) (ct originalName : String)
    (headers : List JSVal) (rows : List (List JSVal)) (xIdx yIdx : Nat) :
    chartLenOK (uploadChart user fid cid ct originalName headers rows xIdx yIdx) := by
  simp [chartLenOK, uploadChart]

/-- Every chart built by the `/autogen` per-file body satisfies the
invariant. -/
theorem autogenCore_lenOK (user : Nat) (f : FileRec) (ch : ChartRec)
    (h : autogenCore user f = some ch) : chartLenOK ch := by
  simp only [autogenCore] at h
  split at h
  · exact absurd h (by simp)
  · split at h
    · exact absurd h (by simp)
    · split at h
      · exact absurd h (by simp)
      · split at h
        · exact absurd h (by simp)
        · split at h
          · split at h
            · exact absurd h (by simp)
            · cases h
              simp [chartLenOK]
          · exact absurd h (by simp)

/-- Manual creation either leaves the chart list unchanged or appends one
chart whose configuration comes from `manualChartConfig`. -/
theorem manualCreate_charts_cases (user : Nat) (title description chartType : String)
    (sourceFile : Nat) (xColumn yColumn : String) (st : DBState) :
    (manualCreate user title description chartType sourceFile xColumn yColumn st).2.charts
      = st.charts
    ∨ ∃ ch, (manualCreate user title description chartType sourceFile xColumn yColumn st).2.charts
          = st.charts ++ [ch]
        ∧ ∃ headers rows xIdx yIdx,
            ch.chartConfig = manualChartConfig chartType headers rows xIdx yIdx := by
  simp only [manualCreate]
  split
  · exact Or.inl rfl
  · split
    · exact Or.inl rfl
    · split
      · exact Or.inl rfl
      · split
        · exact Or.inl rfl
        · split
          · exact Or.inl rfl
          · split
            · exact Or.inl rfl
            · split
              · split
                · exact Or.inl rfl
                · exact Or.inr ⟨_, rfl, _, _, _, _, rfl⟩
              · exact Or.inl rfl

/-- `autogenTry` either skips or produces the `autogenCore` chart with the
store's fresh identifier. -/
theorem autogenTry_some (user : Nat) (st : DBState) (f : FileRec) (ch : ChartRec)
    (hT : autogenTry user st f = some ch) :
    ∃ c0, autogenCore user f = some c0 ∧ ch = { c0 with id := st.nextId } := by
  unfold autogenTry at hT
  split at hT
  · exact absurd hT (by simp)
  · cases hc0 : autogenCore user f with
    | none => rw [hc0] at hT; exact absurd hT (by simp)
    | some c0 =>
      rw [hc0] at hT
      refine ⟨c0, rfl, ?_⟩
      have h2 : ({ c0 with id := st.nextId } : ChartRec) = ch := by simpa using hT
      exact h2.symm

/-- The `/autogen` loop preserves the configuration-shape invariant. -/
theorem autogenLoop_preserves_lenOK (user : Nat) :
    ∀ fs st, (∀ c ∈ st.charts, chartLenOK c) →
      ∀ c ∈ (autogenLoop user fs st).1.charts, chartLenOK c := by
  intro fs
  induction fs with
  | nil => intro st h c hc; exact h c hc
  | cons f rest ih =>
    intro st h
    cases hT : autogenTry user st f with
    | none =>
      simp only [autogenLoop, hT]
      exact ih st h
    | some ch =>
      have hch : chartLenOK ch := by
        obtain ⟨c0, hc0, hche⟩ := autogenTry_some user st f ch hT
        have hlen := autogenCore_lenOK user f c0 hc0
        rw [hche]
        simpa [chartLenOK] using hlen
      simp only [autogenLoop, hT]
      apply ih
      intro c hc
      rcases List.mem_append.mp hc with h1 | h1
      · exact h c h1
      · rw [List.mem_singleton.mp h1]
        exact hch

/-- The upload-time chart-type loop preserves the configuration-shape
invariant. -/
theorem uploadTypesLoop_preserves_lenOK (user fid : Nat) (originalName : String)
    (headers : List JSVal) (rows : List (List JSVal)) (xIdx yIdx : Nat) :
    ∀ cts st, (∀ c ∈ st.charts, chartLenOK c) →
      ∀ c ∈ (uploadTypesLoop user fid originalName headers rows xIdx yIdx cts st).charts,
        chartLenOK c := by
  intro cts
  induction cts with
  | nil => intro st h c hc; exact h c hc
  | cons ct rest ih =>
    intro st h
    simp only [uploadTypesLoop]
    split
    · exact ih st h
    · apply ih
      intro c hc
      rcases List.mem_append.mp hc with h1 | h1
      · exact h c h1
      · rw [List.mem_singleton.mp h1]
        exact uploadChart_lenOK user fid st.nextId ct originalName headers rows xIdx yIdx

/-- C10.  Starting from any store whose charts already satisfy it, every
creation path — manual creation, bulk auto-generation, upload-time
auto-generation — preserves the invariant that the dataset's data list has
exactly the length of the labels list. -/
theorem c10_labels_length_eq_data_length :
    ∀ st, (∀ c ∈ st.charts, chartLenOK c) →
      (∀ user title description chartType sourceFile xColumn yColumn,
        ∀ c ∈ (manualCreate user title description chartType sourceFile xColumn yColumn st).2.charts,
          chartLenOK c)
      ∧ (∀ user, ∀ c ∈ (autogenRoute user st).1.charts, chartLenOK c)
      ∧ (∀ user req, ∀ c ∈ (uploadRoute user req st).1.charts, chartLenOK c) := by
  intro st h
  refine ⟨?_, ?_, ?_⟩
  · intro user title description chartType sourceFile xColumn yColumn c hc
    rcases manualCreate_charts_cases user title description chartType sourceFile xColumn
      yColumn st with hcase | ⟨ch, hcase, headers, rows, xIdx, yIdx, hcfg⟩
    · rw [hcase] at hc
      exact h c hc
    · rw [hcase] at hc
      rcases List.mem_append.mp hc with h1 | h1
      · exact h c h1
      · rw [List.mem_singleton.mp h1]
        show chartLenOK ch
        unfold chartLenOK
        rw [hcfg]
        exact manualChartConfig_lenOK chartType headers rows xIdx yIdx
  · intro user c hc
    exact autogenLoop_preserves_lenOK user (st.files.filter (fun f => f.uploadedBy == user))
      st h c hc
  · intro user req c hc
    simp only [uploadRoute] at hc
    split at hc
    · exact h c hc
    · split at hc
      · exact h c hc
      · split at hc
        · exact h c hc
        · exact uploadTypesLoop_preserves_lenOK user st.nextId req.originalName
            _ _ _ _ uploadChartTypes
            { st with
              files := st.files ++
                [({ id := st.nextId, originalName := req.originalName,
                    mimetype := req.mimetype, uploadedBy := user,
                    sheet := req.sheet } : FileRec)],
              nextId := st.nextId + 1 }
            h c hc

/-- The `/autogen` loop only appends charts: final charts are the initial
ones followed by the created list, and the file table is untouched. -/
theorem autogenLoop_charts_append (user : Nat) :
    ∀ fs st, (autogenLoop user fs st).1.charts = st.charts ++ (autogenLoop user fs st).2
      ∧ (autogenLoop user fs st).1.files = st.files := by
  intro fs
  induction fs with
  | nil => intro st; simp [autogenLoop]
  | cons f rest ih =>
    intro st
    cases hT : autogenTry user st f with
    | none =>
      simp only [autogenLoop, hT]
      exact ih st
    | some ch =>
      simp only [autogenLoop, hT]
      constructor
      · rw [(ih _).1]
        simp
      · exact (ih _).2

/-- A file whose `autogenCore` fails is skipped no matter the store state. -/
theorem autogenTry_none_of_core_none (user : Nat) (st : DBState) (f : FileRec)
    (h : autogenCore user f = none) : autogenTry user st f = none := by
  unfold autogenTry
  split
  · rfl
  · rw [h]
    rfl

/-- A skip is caused either by the duplicate-chart guard or by a per-file
condition that does not depend on the store. -/
theorem autogenTry_none_cases (user : Nat) (st : DBState) (f : FileRec)
    (h : autogenTry user st f = none) :
    st.charts.any (chartBlocks user f) = true ∨ autogenCore user f = none := by
  unfold autogenTry at h
  split at h
  · exact Or.inl (by assumption)
  · cases hc : autogenCore user f with
    | none => exact Or.inr rfl
    | some c0 => rw [hc] at h; exact absurd h (by simp)

/-- Charts created by `autogenCore` reference the processed file and the
requesting user, and are bar charts. -/
theorem autogenCore_fields (user : Nat) (f : FileRec) (c0 : ChartRec)
    (h : autogenCore user f = some c0) :
    c0.sourceFile = f.id ∧ c0.createdBy = user ∧ c0.chartType = "bar" := by
  simp only [autogenCore] at h
  split at h
  · exact absurd h (by simp)
  · split at h
    · exact absurd h (by simp)
    · split at h
      · exact absurd h (by simp)
      · split at h
        · exact absurd h (by simp)
        · split at h
          · split at h
            · exact absurd h (by simp)
            · cases h
              exact ⟨rfl, rfl, rfl⟩
          · exact absurd h (by simp)

/-- The duplicate-chart guard is monotone in the chart list. -/
theorem anyBlocks_append (p : ChartRec → Bool) (l l' : List ChartRec)
    (h : l.any p = true) : (l ++ l').any p = true := by
  rw [List.any_append, h]
  rfl

/-- After one `/autogen` pass, every file of the processed list is skipped
at the resulting store. -/
theorem autogenLoop_saturates (user : Nat) :
    ∀ fs st f, f ∈ fs → autogenTry user (autogenLoop user fs st).1 f = none := by
  intro fs
  induction fs with
  | nil => intro st f hf; exact absurd hf (by simp)
  | cons g rest ih =>
    intro st f hf
    cases hT : autogenTry user st g with
    | none =>
      simp only [autogenLoop, hT]
      rcases List.mem_cons.mp hf with rfl | hf'
      · rcases autogenTry_none_cases user st f hT with hb | hc
        · unfold autogenTry
          rw [(autogenLoop_charts_append user rest st).1]
          rw [if_pos (anyBlocks_append _ _ _ hb)]
        · exact autogenTry_none_of_core_none user _ f hc
      · exact ih st f hf'
    | some ch =>
      simp only [autogenLoop, hT]
      rcases List.mem_cons.mp hf with rfl | hf'
      · obtain ⟨c0, hc0, hche⟩ := autogenTry_some user st f ch hT
        obtain ⟨hsf, hcb, _⟩ := autogenCore_fields user f c0 hc0
        have hchb : chartBlocks user f ch = true := by
          unfold chartBlocks
          rw [hche]
          simp [hsf, hcb]
        have hb2 : ((autogenLoop user rest
            (⟨st.files, st.charts ++ [ch], st.nextId + 1⟩ : DBState)).1.charts.any
              (chartBlocks user f)) = true := by
          rw [(autogenLoop_charts_append user rest _).1]
          apply anyBlocks_append
          show (st.charts ++ [ch]).any (chartBlocks user f) = true
          rw [List.any_append]
          simp [hchb]
        unfold autogenTry
        rw [if_pos hb2]
      · exact ih _ f hf'

/-- A pass over files that are all skipped leaves the store untouched and
creates nothing. -/
theorem autogenLoop_all_skipped (user : Nat) :
    ∀ fs st, (∀ f ∈ fs, autogenTry user st f = none) →
      autogenLoop user fs st = (st, []) := by
  intro fs
  induction fs with
  | nil => intro st h; rfl
  | cons g rest ih =>
    intro st h
    have hg := h g (by simp)
    simp only [autogenLoop, hg]
    exact ih st (fun f hf => h f (List.mem_cons_of_mem g hf))

/-- The upload-time chart-type loop only appends charts. -/
theorem uploadTypesLoop_charts_extend (user fid : Nat) (originalName : String)
    (headers : List JSVal) (rows : List (List JSVal)) (xIdx yIdx : Nat) :
    ∀ cts st, ∃ cs, (uploadTypesLoop user fid originalName headers rows xIdx yIdx cts st).charts
      = st.charts ++ cs := by
  intro cts
  induction cts with
  | nil => intro st; exact ⟨[], by simp [uploadTypesLoop]⟩
  | cons ct rest ih =>
    intro st
    simp only [uploadTypesLoop]
    split
    · exact ih st
    · obtain ⟨cs, hcs⟩ := ih (⟨st.files,
        st.charts ++ [uploadChart user fid st.nextId ct originalName headers rows xIdx yIdx],
        st.nextId + 1⟩ : DBState)
      exact ⟨uploadChart user fid st.nextId ct originalName headers rows xIdx yIdx :: cs,
        by rw [hcs]; simp⟩

/-- After the upload-time loop, every processed chart type has a matching
chart in the store. -/
theorem uploadTypesLoop_saturates (user fid : Nat) (originalName : String)
    (headers : List JSVal) (rows : List (List JSVal)) (xIdx yIdx : Nat) :
    ∀ cts st ct, ct ∈ cts →
      ((uploadTypesLoop user fid originalName headers rows xIdx yIdx cts st).charts.any
        (fun c => c.sourceFile == fid && c.createdBy == user && c.chartType == ct)) = true := by
  intro cts
  induction cts with
  | nil => intro st ct hct; exact absurd hct (by simp)
  | cons ct0 rest ih =>
    intro st ct hct
    simp only [uploadTypesLoop]
    split
    · rcases List.mem_cons.mp hct with rfl | hct'
      · obtain ⟨cs, hcs⟩ := uploadTypesLoop_charts_extend user fid originalName headers rows
          xIdx yIdx rest st
        rw [hcs]
        apply anyBlocks_append
        assumption
      · exact ih st ct hct'
    · rcases List.mem_cons.mp hct with rfl | hct'
      · obtain ⟨cs, hcs⟩ := uploadTypesLoop_charts_extend user fid originalName headers rows
          xIdx yIdx rest (⟨st.files,
            st.charts ++ [uploadChart user fid st.nextId ct originalName headers rows xIdx yIdx],
            st.nextId + 1⟩ : DBState)
        rw [hcs]
        apply anyBlocks_append
        show ((st.charts ++ [uploadChart user fid st.nextId ct originalName headers rows
          xIdx yIdx]).any (fun c => c.sourceFile == fid && c.createdBy == user
            && c.chartType == ct)) = true
        rw [List.any_append]
        simp [uploadChart]
      · exact ih _ ct hct'

/-- A chart-type list whose every element already has a matching chart is a
no-op for the upload-time loop. -/
theorem uploadTypesLoop_all_present (user fid : Nat) (originalName : String)
    (headers : List JSVal) (rows : List (List JSVal)) (xIdx yIdx : Nat) :
    ∀ cts st, (∀ ct ∈ cts,
        (st.charts.any (fun c => c.sourceFile == fid && c.createdBy == user
          && c.chartType == ct)) = true) →
      uploadTypesLoop user fid originalName headers rows xIdx yIdx cts st = st := by
  intro cts
  induction cts with
  | nil => intro st h; rfl
  | cons ct rest ih =>
    intro st h
    simp only [uploadTypesLoop]
    rw [if_pos (h ct (by simp))]
    exact ih st (fun c hc => h c (List.mem_cons_of_mem ct hc))

/-- C5.  Both automatic-generation paths are idempotent: a second `/autogen`
run right after a first one creates no chart and leaves the store unchanged
(each file is either skipped for store-independent reasons or now guarded by
the existence check), and re-running the upload-time per-type loop adds
nothing because each processed type's chart now exists.  Together with the
per-run guard this gives at most one automatically generated chart per
(file, user, chartType) tuple. -/
theorem c5_autogen_is_idempotent :
    (∀ user st,
        (autogenRoute user (autogenRoute user st).1).2.created = 0
        ∧ (autogenRoute user (autogenRoute user st).1).2.details = []
        ∧ (autogenRoute user (autogenRoute user st).1).1 = (autogenRoute user st).1)
    ∧ (∀ user fid originalName headers rows xIdx yIdx cts st,
        uploadTypesLoop user fid originalName headers rows xIdx yIdx cts
            (uploadTypesLoop user fid originalName headers rows xIdx yIdx cts st)
          = uploadTypesLoop user fid originalName headers rows xIdx yIdx cts st) := by
  constructor
  · intro user st
    have hfiles : (autogenRoute user st).1.files = st.files :=
      (autogenLoop_charts_append user (st.files.filter (fun f => f.uploadedBy == user)) st).2
    have hskip : ∀ f ∈ (autogenRoute user st).1.files.filter (fun f => f.uploadedBy == user),
        autogenTry user (autogenRoute user st).1 f = none := by
      rw [hfiles]
      intro f hf
      exact autogenLoop_saturates user (st.files.filter (fun g => g.uploadedBy == user)) st f hf
    have hloop := autogenLoop_all_skipped user
      ((autogenRoute user st).1.files.filter (fun f => f.uploadedBy == user))
      (autogenRoute user st).1 hskip
    refine ⟨?_, ?_, ?_⟩
    · show ((autogenLoop user ((autogenRoute user st).1.files.filter
        (fun f => f.uploadedBy == user)) (autogenRoute user st).1).2).length = 0
      rw [hloop]
      rfl
    · show ((autogenLoop user ((autogenRoute user st).1.files.filter
        (fun f => f.uploadedBy == user)) (autogenRoute user st).1).2).map
          (fun c => (c.title, c.id)) = []
      rw [hloop]
      rfl
    · show (autogenLoop user ((autogenRoute user st).1.files.filter
        (fun f => f.uploadedBy == user)) (autogenRoute user st).1).1 = (autogenRoute user st).1
      rw [hloop]
  · intro user fid originalName headers rows xIdx yIdx cts st
    apply uploadTypesLoop_all_present
    intro ct hct
    exact uploadTypesLoop_saturates user fid originalName headers rows xIdx yIdx cts st ct hct

/-- C8.  Bulk auto-generation is best-effort: a file on which the per-file
body fails for store-independent reasons (parse error, too few rows, no
usable column pair, no valid data points) is skipped wherever it sits in the
file list, with the remaining files processed exactly as if it were absent;
the response reports the number of newly persisted charts and their titles
and identifiers. -/
theorem c8_best_effort_batch :
    ∀ user st f fs1 fs2,
      autogenCore user f = none →
      (autogenLoop user (fs1 ++ f :: fs2) st = autogenLoop user (fs1 ++ fs2) st)
      ∧ (autogenRoute user st).2.created
          = (autogenRoute user st).1.charts.length - st.charts.length
      ∧ (autogenRoute user st).2.details
          = ((autogenRoute user st).1.charts.drop st.charts.length).map
              (fun c => (c.title, c.id)) := by
  intro user st f fs1 fs2 hcore
  refine ⟨?_, ?_, ?_⟩
  · induction fs1 generalizing st with
    | nil =>
      simp only [List.nil_append]
      simp only [autogenLoop, autogenTry_none_of_core_none user st f hcore]
    | cons g gs ih =>
      simp only [List.cons_append]
      cases hT : autogenTry user st g with
      | none =>
        simp only [autogenLoop, hT]
        exact ih _
      | some ch =>
        simp only [autogenLoop, hT]
        rw [ih _]
  · have h1 := (autogenLoop_charts_append user
      (st.files.filter (fun g => g.uploadedBy == user)) st).1
    show (autogenLoop user (st.files.filter (fun g => g.uploadedBy == user)) st).2.length
      = (autogenLoop user (st.files.filter (fun g => g.uploadedBy == user)) st).1.charts.length
        - st.charts.length
    rw [h1]
    simp
  · have h1 := (autogenLoop_charts_append user
      (st.files.filter (fun g => g.uploadedBy == user)) st).1
    show (autogenLoop user (st.files.filter (fun g => g.uploadedBy == user)) st).2.map
        (fun c => (c.title, c.id))
      = ((autogenLoop user (st.files.filter (fun g => g.uploadedBy == user)) st).1.charts.drop
          st.charts.length).map (fun c => (c.title, c.id))
    rw [h1, List.drop_left]

/-- C8 witness: a stored file whose bytes do not parse is skipped without
aborting an (empty-remainder) batch, at the empty store. -/
theorem c8_best_effort_batch_witness :
    (autogenLoop 0
        ([] ++ ({ id := 5, originalName := "bad.xlsx",
                  mimetype := "application/vnd.ms-excel", uploadedBy := 0,
                  sheet := none } : FileRec) :: [])
        { files := [], charts := [], nextId := 1 }
      = autogenLoop 0 ([] ++ [])
        { files := [], charts := [], nextId := 1 })
    ∧ (autogenRoute 0 { files := [], charts := [], nextId := 1 }).2.created
        = (autogenRoute 0 { files := [], charts := [], nextId := 1 }).1.charts.length - 0 :=
  ⟨(c8_best_effort_batch 0 { files := [], charts := [], nextId := 1 }
      { id := 5, originalName := "bad.xlsx", mimetype := "application/vnd.ms-excel",
        uploadedBy := 0, sheet := none } [] [] (by decide)).1,
   (c8_best_effort_batch 0 { files := [], charts := [], nextId := 1 }
      { id := 5, originalName := "bad.xlsx", mimetype := "application/vnd.ms-excel",
        uploadedBy := 0, sheet := none } [] [] (by decide)).2.1⟩

/-- C10 witness: from the empty store, an upload that triggers chart
generation yields charts satisfying the length invariant; checked on the
first generated chart. -/
theorem c10_labels_length_eq_data_length_witness :
    chartLenOK (((uploadRoute 0
        { originalName := "f.xlsx", mimetype := "application/vnd.ms-excel",
          sheet := some [[JSVal.str "H1", JSVal.str "H2"],
                         [JSVal.num 1, JSVal.num 10], [JSVal.num 1, JSVal.num 20]] }
        { files := [], charts := [], nextId := 1 }).1.charts).headD
      { id := 0, title := "", chartType := "",
        chartConfig := { labels := [], datasets := [] }, sourceFile := 0, createdBy := 0 }) :=
  (c10_labels_length_eq_data_length { files := [], charts := [], nextId := 1 }
      (by intro c hc; exact absurd hc (by simp))).2.2 0
    { originalName := "f.xlsx", mimetype := "application/vnd.ms-excel",
      sheet := some [[JSVal.str "H1", JSVal.str "H2"],
                     [JSVal.num 1, JSVal.num 10], [JSVal.num 1, JSVal.num 20]] }
    _ (by decide)

/-- C3 counterexample to the claim as stated: the upload-time auto-generated
pie chart applies no aggregation — two rows with the same X value 1 yield a
configuration with two identical labels and two separate data points instead
of one summed point per distinct label. -/
theorem c3_upload_pie_not_aggregated :
    (((uploadRoute 0
        { originalName := "f.xlsx", mimetype := "application/vnd.ms-excel",
          sheet := some [[JSVal.str "H1", JSVal.str "H2"],
                         [JSVal.num 1, JSVal.num 10], [JSVal.num 1, JSVal.num 20]] }
        { files := [], charts := [], nextId := 1 }).1.charts.filter
        (fun c => c.chartType == "pie")).map
        (fun c => (c.chartConfig.labels, c.chartConfig.datasets.map Dataset.data)))
      = [([JSVal.num 1, JSVal.num 1], [[JSVal.num 10, JSVal.num 20]])] := by decide

/-- `qAdd` agrees with rational addition. -/
theorem qAdd_eq_add (a b : ℚ) : qAdd a b = a + b := (Rat.add_def' a b).symm

/-- `n || 0` on a finite number is that number. -/
theorem jsOr_num_zero (a : ℚ) : jsOr (JSVal.num a) (JSVal.num 0) = JSVal.num a := by
  unfold jsOr jsTruthy
  by_cases h : a = 0
  · simp [h]
  · simp [h]

/-- One `updateAssoc` step on a lifted rational association list is the
lifted pure update. -/
theorem updateAssoc_lift (accQ : List (String × ℚ)) (k : String) (q : ℚ) :
    updateAssoc (liftQ accQ) k (JSVal.num q) = liftQ (updateQ accQ k q) := by
  induction accQ with
  | nil =>
    simp only [liftQ, List.map_nil, updateAssoc, updateQ, List.map_cons]
    rw [show jsOr JSVal.undef (JSVal.num 0) = JSVal.num 0 from rfl]
    simp [jsAdd, qAdd_eq_add]
  | cons p rest ih =>
    simp only [liftQ, List.map_cons] at ih ⊢
    by_cases h : p.1 = k
    · simp only [updateAssoc, updateQ, h, if_pos rfl]
      rw [jsOr_num_zero]
      simp [jsAdd, qAdd_eq_add]
    · simp only [updateAssoc, updateQ, if_neg h]
      rw [ih]
      simp

/-- The aggregation fold over points with numeric Y values is the lifted
pure fold. -/
theorem aggregate_fold_lift :
    ∀ (pts : List (JSVal × JSVal)) (accQ : List (String × ℚ)),
      (∀ p ∈ pts, ∃ q, p.2 = JSVal.num q) →
      pts.foldl (fun acc item => updateAssoc acc (jsString item.1) item.2) (liftQ accQ)
        = liftQ (foldQ accQ (pts.map (fun p => (jsString p.1, qVal p.2)))) := by
  intro pts
  induction pts with
  | nil => intro accQ h; rfl
  | cons p rest ih =>
    intro accQ h
    obtain ⟨q, hq⟩ := h p (by simp)
    simp only [List.foldl_cons, List.map_cons]
    rw [hq]
    rw [updateAssoc_lift accQ (jsString p.1) q]
    rw [ih (updateQ accQ (jsString p.1) q) (fun x hx => h x (List.mem_cons_of_mem p hx))]
    rfl

/-- `aggregateData` on cleaned points is the lifted pure group-by fold. -/
theorem aggregateData_lift (pts : List (JSVal × JSVal))
    (h : ∀ p ∈ pts, ∃ q, p.2 = JSVal.num q) :
    aggregateData pts = liftQ (foldQ [] (pts.map (fun p => (jsString p.1, qVal p.2)))) := by
  unfold aggregateData
  have := aggregate_fold_lift pts [] h
  simpa [liftQ] using this

/-- Keys after a pure update: unchanged when present, appended otherwise. -/
theorem updateQ_keys (acc : List (String × ℚ)) (k : String) (v : ℚ) :
    (updateQ acc k v).map Prod.fst
      = if k ∈ acc.map Prod.fst then acc.map Prod.fst else acc.map Prod.fst ++ [k] := by
  induction acc with
  | nil => simp [updateQ]
  | cons p rest ih =>
    by_cases h : p.1 = k
    · simp [updateQ, h]
    · simp only [updateQ, if_neg h, List.map_cons, ih]
      by_cases hm : k ∈ rest.map Prod.fst
      · simp [hm, Ne.symm h]
      · simp [hm, Ne.symm h]

theorem groupSum_nil (j : String) : groupSum [] j = 0 := rfl

theorem groupSum_cons (a : String) (b : ℚ) (l : List (String × ℚ)) (j : String) :
    groupSum ((a, b) :: l) j = (if a = j then b else 0) + groupSum l j := by
  by_cases h : a = j
  · simp [groupSum, List.filter_cons, h]
  · simp [groupSum, List.filter_cons, h]

/-- Group sums after a pure update: the updated key gains `v`. -/
theorem groupSum_updateQ (acc : List (String × ℚ)) (k : String) (v : ℚ) (j : String) :
    groupSum (updateQ acc k v) j = groupSum acc j + (if k = j then v else 0) := by
  induction acc with
  | nil =>
    simp only [updateQ]
    rw [groupSum_cons, groupSum_nil]
    ring
  | cons p rest ih =>
    obtain ⟨a, b⟩ := p
    by_cases h : a = k
    · simp only [updateQ, if_pos h]
      rw [groupSum_cons, groupSum_cons]
      subst h
      by_cases hj : a = j
      · simp only [if_pos hj]
        ring
      · simp only [if_neg hj]
        ring
    · simp only [updateQ, if_neg h]
      rw [groupSum_cons, groupSum_cons, ih]
      ring

/-- Keys of the pure fold: the seed's keys, then the new keys in first-
appearance order. -/
theorem foldQ_keys :
    ∀ (pts acc : List (String × ℚ)),
      (foldQ acc pts).map Prod.fst
        = acc.map Prod.fst ++ dedupNotIn (pts.map Prod.fst) (acc.map Prod.fst) := by
  intro pts
  induction pts with
  | nil => intro acc; simp [foldQ, dedupNotIn]
  | cons p rest ih =>
    intro acc
    obtain ⟨k, v⟩ := p
    have hstep : foldQ acc ((k, v) :: rest) = foldQ (updateQ acc k v) rest := rfl
    rw [hstep, ih (updateQ acc k v), updateQ_keys]
    by_cases hm : k ∈ acc.map Prod.fst
    · simp only [if_pos hm, List.map_cons, dedupNotIn, if_pos hm]
    · simp only [if_neg hm, List.map_cons, dedupNotIn, if_neg hm]
      simp [List.append_assoc]

/-- Group sums of the pure fold add the seed's and the points' sums. -/
theorem foldQ_groupSum :
    ∀ (pts acc : List (String × ℚ)) (j : String),
      groupSum (foldQ acc pts) j = groupSum acc j + groupSum pts j := by
  intro pts
  induction pts with
  | nil =>
    intro acc j
    rw [show foldQ acc [] = acc from rfl, groupSum_nil]
    ring
  | cons p rest ih =>
    intro acc j
    obtain ⟨k, v⟩ := p
    have hstep : foldQ acc ((k, v) :: rest) = foldQ (updateQ acc k v) rest := rfl
    rw [hstep, ih (updateQ acc k v), groupSum_updateQ, groupSum_cons]
    by_cases hj : k = j
    · simp only [if_pos hj]
      ring
    · simp only [if_neg hj]
      ring

/-- First-appearance deduplication yields keys outside `seen`, without
duplicates, all drawn from the input. -/
theorem dedupNotIn_spec :
    ∀ (l seen : List String),
      (∀ k ∈ dedupNotIn l seen, k ∉ seen)
      ∧ (dedupNotIn l seen).Nodup
      ∧ (∀ k ∈ dedupNotIn l seen, k ∈ l) := by
  intro l
  induction l with
  | nil => intro seen; refine ⟨?_, ?_, ?_⟩ <;> simp [dedupNotIn]
  | cons a rest ih =>
    intro seen
    by_cases hm : a ∈ seen
    · simp only [dedupNotIn, if_pos hm]
      obtain ⟨h1, h2, h3⟩ := ih seen
      exact ⟨h1, h2, fun k hk => List.mem_cons_of_mem a (h3 k hk)⟩
    · simp only [dedupNotIn, if_neg hm]
      obtain ⟨h1, h2, h3⟩ := ih (seen ++ [a])
      refine ⟨?_, ?_, ?_⟩
      · intro k hk
        rcases List.mem_cons.mp hk with rfl | hk'
        · exact hm
        · intro hks
          exact (h1 k hk') (List.mem_append_left [a] hks)
      · refine List.nodup_cons.mpr ⟨?_, h2⟩
        intro ha
        exact (h1 a ha) (List.mem_append_right seen (by simp))
      · intro k hk
        rcases List.mem_cons.mp hk with rfl | hk'
        · exact List.mem_cons_self k rest
        · exact List.mem_cons_of_mem a (h3 k hk')

/-- A key absent from an association list has group sum 0. -/
theorem groupSum_eq_zero_of_not_mem (l : List (String × ℚ)) (k : String)
    (h : k ∉ l.map Prod.fst) : groupSum l k = 0 := by
  induction l with
  | nil => rfl
  | cons p rest ih =>
    obtain ⟨a, b⟩ := p
    simp only [List.map_cons, List.mem_cons] at h
    push_neg at h
    rw [groupSum_cons, if_neg (Ne.symm h.1), ih h.2]
    ring

/-- In an association list with distinct keys, each entry's value is its
key's group sum. -/
theorem val_eq_groupSum_of_nodup_keys :
    ∀ (l : List (String × ℚ)), (l.map Prod.fst).Nodup →
      ∀ kv ∈ l, kv.2 = groupSum l kv.1 := by
  intro l
  induction l with
  | nil => intro _ kv hkv; exact absurd hkv (by simp)
  | cons p rest ih =>
    intro hnd kv hkv
    obtain ⟨a, b⟩ := p
    simp only [List.map_cons, List.nodup_cons] at hnd
    rcases List.mem_cons.mp hkv with rfl | hkv'
    · rw [groupSum_cons, if_pos rfl,
        groupSum_eq_zero_of_not_mem rest a hnd.1]
      ring
    · have hne : a ≠ kv.1 := by
        intro hcontra
        exact hnd.1 (hcontra ▸ List.mem_map_of_mem Prod.fst hkv')
      rw [groupSum_cons, if_neg hne, ih hnd.2 kv hkv']
      ring

/-- Reconstruction: an association list whose values are determined by a
function of the key is the map of that function over its keys. -/
theorem assoc_eq_map_of_vals :
    ∀ (l : List (String × ℚ)) (g : String → ℚ),
      (∀ kv ∈ l, kv.2 = g kv.1) → l = (l.map Prod.fst).map (fun k => (k, g k)) := by
  intro l
  induction l with
  | nil => intro g _; rfl
  | cons p rest ih =>
    intro g h
    obtain ⟨a, b⟩ := p
    simp only [List.map_cons]
    have hb : b = g a := h (a, b) (by simp)
    rw [← hb, ← ih g (fun kv hkv => h kv (List.mem_cons_of_mem (a, b) hkv))]

/-- The pure fold from an empty seed is exactly the first-appearance
group-by with summed values. -/
theorem foldQ_nil_eq_groupBy (pts : List (String × ℚ)) :
    foldQ [] pts
      = (dedupKeepFirst (pts.map Prod.fst)).map (fun k => (k, groupSum pts k)) := by
  have hkeys : (foldQ [] pts).map Prod.fst = dedupKeepFirst (pts.map Prod.fst) := by
    have h := foldQ_keys pts []
    simpa [dedupKeepFirst] using h
  have hnd : ((foldQ [] pts).map Prod.fst).Nodup := by
    rw [hkeys]
    exact (dedupNotIn_spec (pts.map Prod.fst) []).2.1
  have hvals : ∀ kv ∈ foldQ [] pts, kv.2 = groupSum pts kv.1 := by
    intro kv hkv
    have h1 := val_eq_groupSum_of_nodup_keys (foldQ [] pts) hnd kv hkv
    rw [h1, foldQ_groupSum pts [] kv.1, groupSum_nil]
    ring
  have h2 := assoc_eq_map_of_vals (foldQ [] pts) (fun k => groupSum pts k) hvals
  rw [← hkeys]
  exact h2

/-- With no array-index key present, JS object enumeration order is
insertion order. -/
theorem jsOrderedEntries_eq_self (entries : List (String × JSVal))
    (h : ∀ e ∈ entries, isArrayIndexKey e.1 = false) :
    jsOrderedEntries entries = entries := by
  unfold jsOrderedEntries
  have h1 : entries.filter (fun e => isArrayIndexKey e.1) = [] := by
    rw [List.filter_eq_nil_iff]
    intro e he
    simp [h e he]
  have h2 : entries.filter (fun e => !isArrayIndexKey e.1) = entries := by
    rw [List.filter_eq_self]
    intro e he
    simp [h e he]
  rw [h1, h2]
  rfl

/-- C3 amended.  For a manual pie (or doughnut) chart whose display labels
are not array-index strings, the emitted configuration has exactly one data
point per distinct X display label, each carrying the sum of the Y values of
the cleaned rows sharing that label, with labels in order of first
appearance.  (With array-index labels, JS object key enumeration reorders
them numerically; and the upload-time pie chart performs no aggregation at
all, see the counterexample.) -/
theorem c3_manual_pie_aggregates :
    ∀ headers rows xIdx yIdx,
      (∀ s ∈ (manualCleanData rows xIdx yIdx).map (fun p => jsString p.1),
          isArrayIndexKey s = false) →
      (manualChartConfig "pie" headers rows xIdx yIdx).labels
          = (dedupKeepFirst ((manualCleanData rows xIdx yIdx).map (fun p => jsString p.1))).map
              JSVal.str
      ∧ (manualChartConfig "pie" headers rows xIdx yIdx).datasets.map Dataset.data
          = [(dedupKeepFirst ((manualCleanData rows xIdx yIdx).map (fun p => jsString p.1))).map
              (fun k => JSVal.num (groupSum
                ((manualCleanData rows xIdx yIdx).map (fun p => (jsString p.1, qVal p.2))) k))] := by
  intro headers rows xIdx yIdx hidx
  have hnum : ∀ p ∈ manualCleanData rows xIdx yIdx, ∃ q, p.2 = JSVal.num q := by
    intro p hp
    have hp' : p ∈ manualCleanPairs rows xIdx yIdx := List.mem_of_mem_take hp
    unfold manualCleanPairs at hp'
    obtain ⟨hp2, _⟩ := List.mem_filter.mp hp'
    obtain ⟨r, _, hr⟩ := List.mem_map.mp hp2
    rw [← hr]
    exact jsOr_toNumber_zero_num _
  have hagg := aggregateData_lift (manualCleanData rows xIdx yIdx) hnum
  have hfold := foldQ_nil_eq_groupBy
    ((manualCleanData rows xIdx yIdx).map (fun p => (jsString p.1, qVal p.2)))
  have hkeysmap : ((manualCleanData rows xIdx yIdx).map
      (fun p => (jsString p.1, qVal p.2))).map Prod.fst
      = (manualCleanData rows xIdx yIdx).map (fun p => jsString p.1) := by
    rw [List.map_map]
    rfl
  have hentries : aggregateData (manualCleanData rows xIdx yIdx)
      = liftQ ((dedupKeepFirst ((manualCleanData rows xIdx yIdx).map
          (fun p => jsString p.1))).map
          (fun k => (k, groupSum ((manualCleanData rows xIdx yIdx).map
            (fun p => (jsString p.1, qVal p.2))) k))) := by
    rw [hagg, hfold, hkeysmap]
  have hnoidx : ∀ e ∈ aggregateData (manualCleanData rows xIdx yIdx),
      isArrayIndexKey e.1 = false := by
    intro e he
    rw [hentries] at he
    simp only [liftQ, List.mem_map] at he
    obtain ⟨kv, hkv, hekv⟩ := he
    obtain ⟨k, hk, hkkv⟩ := hkv
    have hkmem : k ∈ (manualCleanData rows xIdx yIdx).map (fun p => jsString p.1) :=
      (dedupNotIn_spec _ []).2.2 k hk
    have hek : e.1 = k := by rw [← hekv, ← hkkv]
    rw [hek]
    exact hidx k hkmem
  have hord := jsOrderedEntries_eq_self _ hnoidx
  constructor
  · simp only [manualChartConfig, if_pos (Or.inl rfl)]
    rw [hord, hentries]
    simp [liftQ, List.map_map]
  · simp only [manualChartConfig, if_pos (Or.inl rfl)]
    rw [hord, hentries]
    simp [liftQ, List.map_map]

/-- C3 witness at the spec's example: cleaned rows A1, B2, A3 give labels
A, B (first appearance) and data 4, 2. -/
theorem c3_manual_pie_aggregates_witness :
    (manualChartConfig "pie" [JSVal.str "X", JSVal.str "Y"]
        [[JSVal.str "A", JSVal.num 1], [JSVal.str "B", JSVal.num 2],
         [JSVal.str "A", JSVal.num 3]] 0 1).labels
      = [JSVal.str "A", JSVal.str "B"]
    ∧ (manualChartConfig "pie" [JSVal.str "X", JSVal.str "Y"]
        [[JSVal.str "A", JSVal.num 1], [JSVal.str "B", JSVal.num 2],
         [JSVal.str "A", JSVal.num 3]] 0 1).datasets.map Dataset.data
      = [[JSVal.num 4, JSVal.num 2]] := by
  have h := c3_manual_pie_aggregates [JSVal.str "X", JSVal.str "Y"]
    [[JSVal.str "A", JSVal.num 1], [JSVal.str "B", JSVal.num 2],
     [JSVal.str "A", JSVal.num 3]] 0 1 (by decide)
  refine ⟨?_, by decide⟩
  rw [h.1]
  decide
